import Mathlib

/-!
Formal model of the agentos desktop core (src-tauri): the skill executor
whitelist dispatcher, the process manager, and the websocket client
connection state machine, together with proofs of the specified
behavioural properties.

Shallow embedding conventions:
- serde_json values are modelled by the Json inductive below; indexing a
  non-object or a missing key yields null, as in serde_json.
- Effectful tails of handlers (filesystem access, subprocess execution,
  HTTP calls) are abstracted as a HandlerAct value describing the action
  the code would perform after its pure validation prefix succeeded.
- OS process liveness is modelled by ghost state (alive pids, launch
  history, a fresh-pid counter) threaded through the process manager
  operations.
- Async oneshot / timeout outcomes are modelled as explicit parameters
  (HandshakeWait) to the connect function.
-/

namespace AgentOS

/-- Model of serde_json::Value. Numbers are modelled as integers; no claim
depends on float payloads. -/
inductive Json where
  | null
  | bool (b : Bool)
  | num (n : Int)
  | str (s : String)
  | arr (elems : List Json)
  | obj (fields : List (String × Json))

/-- First-match association-list lookup (models map lookup; object keys are
unique in serde_json maps, so first-match agrees with map semantics). -/
def lookupKey {α : Type} (n : String) : List (String × α) → Option α
  | [] => none
  | e :: rest => if e.1 = n then some e.2 else lookupKey n rest

/-- Remove all bindings for a key (on unique-key lists this is exactly
HashMap::remove of the single binding). -/
def eraseKey {α : Type} (n : String) (l : List (String × α)) : List (String × α) :=
  l.filter (fun e => decide (e.1 ≠ n))

/-- Model of serde_json indexing v[k]: null on a non-object or missing key. -/
def Json.getField : Json → String → Json
  | .obj fields, k =>
      match lookupKey k fields with
      | some v => v
      | none => .null
  | _, _ => .null

/-- Model of Value::as_str. -/
def Json.asStr : Json → Option String
  | .str s => some s
  | _ => none

/-- Model of Value::as_u64 (restricted to the integer model). -/
def Json.asU64 : Json → Option Nat
  | .num n => if 0 ≤ n then some n.toNat else none
  | _ => none

/-- Model of Value::as_array. -/
def Json.asArr : Json → Option (List Json)
  | .arr xs => some xs
  | _ => none

namespace SkillExecutor

/-- Error text of the unknown-function branch of execute_local_command. -/
def unknownFunctionMsg (name : String) : String :=
  "Unknown function: " ++ name

/-- Error text of a missing-argument failure, as produced by the
ok_or calls in the handlers. -/
def missingArgMsg (arg : String) : String :=
  "Missing \x27" ++ arg ++ "\x27 argument"

/-- Error text of the bridge-not-running failure in call_mcp_tool. -/
def bridgeNotRunningMsg : String :=
  "MCP bridge is not running"

/-- The action a handler performs once its pure validation prefix has
succeeded.  The effectful tail (spawning the shell, touching the
filesystem, the HTTP POST to the bridge) is abstracted by this value. -/
inductive HandlerAct where
  | runShell (command : String) (timeoutSecs : Nat)
  | readFile (path : String)
  | writeFile (path content : String)
  | listDirectory (path : String)
  | callMcpTool (port : Nat) (server tool : String) (arguments : Json)

/-- Validation prefix of run_shell: the command string is required, the
timeout defaults to 30 seconds. -/
def run_shell (args : Json) : Except String HandlerAct :=
  match (args.getField "command").asStr with
  | none => .error (missingArgMsg "command")
  | some command =>
      let timeoutSecs := ((args.getField "timeout").asU64).getD 30
      .ok (.runShell command timeoutSecs)

/-- Validation prefix of read_file: the path string is required. -/
def read_file (args : Json) : Except String HandlerAct :=
  match (args.getField "path").asStr with
  | none => .error (missingArgMsg "path")
  | some path => .ok (.readFile path)

/-- Validation prefix of write_file: path then content are required, in
that order. -/
def write_file (args : Json) : Except String HandlerAct :=
  match (args.getField "path").asStr with
  | none => .error (missingArgMsg "path")
  | some path =>
      match (args.getField "content").asStr with
      | none => .error (missingArgMsg "content")
      | some content => .ok (.writeFile path content)

/-- Validation prefix of list_directory: the path string is required. -/
def list_directory (args : Json) : Except String HandlerAct :=
  match (args.getField "path").asStr with
  | none => .error (missingArgMsg "path")
  | some path => .ok (.listDirectory path)

/-- Validation prefix of call_mcp_tool: the port of the process-wide
bridge cell (0 meaning not running) is checked first, then the server and
tool strings are required, in that order.  The port is passed explicitly,
modelling the atomic load of MCP_BRIDGE_PORT. -/
def call_mcp_tool (port : Nat) (args : Json) : Except String HandlerAct :=
  if port = 0 then .error bridgeNotRunningMsg
  else
    match (args.getField "server").asStr with
    | none => .error (missingArgMsg "server")
    | some server =>
        match (args.getField "tool").asStr with
        | none => .error (missingArgMsg "tool")
        | some tool => .ok (.callMcpTool port server tool (args.getField "arguments"))

/-- The whitelist dispatcher execute_local_command: a fixed set of five
function names, any other name is rejected.  The Rust match on the name
string is rendered as an if-chain, which is what string pattern matching
compiles to. -/
def execute_local_command (port : Nat) (function_name : String) (args : Json) :
    Except String HandlerAct :=
  if function_name = "run_shell" then run_shell args
  else if function_name = "read_file" then read_file args
  else if function_name = "write_file" then write_file args
  else if function_name = "list_directory" then list_directory args
  else if function_name = "call_mcp_tool" then call_mcp_tool port args
  else .error (unknownFunctionMsg function_name)

/-- The five whitelisted function names. -/
def whitelist : List String :=
  ["run_shell", "read_file", "write_file", "list_directory", "call_mcp_tool"]

end SkillExecutor

namespace ProcessManager

/-- Cap on the per-process log buffer. -/
def MAX_LOG_LINES : Nat := 1000

/-- One insertion into the shared log buffer, as performed under the lock
by either drain thread: evict the oldest entry when the buffer is at
capacity, then push the new line. -/
def pushLog (log : List String) (line : String) : List String :=
  (if MAX_LOG_LINES ≤ log.length then log.drop 1 else log) ++ [line]

/-- A sequence of insertions (the serialisation of the drain threads
produced by the buffer lock). -/
def appendLines (log : List String) (ls : List String) : List String :=
  ls.foldl pushLog log

/-- The last n entries of a list, in order. -/
def takeLast (n : Nat) (l : List String) : List String :=
  l.drop (l.length - n)

/-- Registry entry: the pid of the owned child plus its shared log
buffer.  The status field of ProcessInfo is constant Running and carries
no information for the claims, so it is omitted. -/
structure ProcInfo where
  pid : Nat
  logs : List String
deriving Repr, DecidableEq

/-- Process-manager state: the registry, plus ghost OS state - the set of
currently live pids, the launch history (which logical name each pid was
launched under), and a fresh-pid counter. -/
structure PMState where
  processes : List (String × ProcInfo)
  alive : List Nat
  launched : List (String × Nat)
  nextPid : Nat
deriving Repr, DecidableEq

/-- The empty manager produced by ProcessManager::new. -/
def initPM : PMState :=
  { processes := [], alive := [], launched := [], nextPid := 0 }

/-- kill(name): remove the binding if present, send the terminate signal
and wait for exit (the registered pid leaves the live set); removing an
absent name is not an error. -/
def kill (s : PMState) (name : String) : PMState :=
  match lookupKey name s.processes with
  | some info =>
      { processes := eraseKey name s.processes
        alive := s.alive.erase info.pid
        launched := s.launched
        nextPid := s.nextPid }
  | none => s

/-- spawn_with_env(name, command, args, envs): kill any existing process
under the name first, then launch (the ok flag models whether the OS
launch succeeds; on success a fresh pid becomes live) and register under
the name with an empty log buffer.  A launch failure propagates after the
kill has already happened. -/
def spawn_with_env (s : PMState) (name : String) (_command : String)
    (_args : List String) (ok : Bool) : Except String Nat × PMState :=
  let s1 := if (lookupKey name s.processes).isSome then kill s name else s
  if ok then
    let pid := s1.nextPid
    (.ok pid,
      { processes := (name, ⟨pid, []⟩) :: eraseKey name s1.processes
        alive := pid :: s1.alive
        launched := (name, pid) :: s1.launched
        nextPid := pid + 1 })
  else
    (.error "spawn failed", s1)

/-- is_running(name): registry membership only. -/
def is_running (s : PMState) (name : String) : Bool :=
  (lookupKey name s.processes).isSome

/-- Error text of get_logs on an unregistered name. -/
def notFoundMsg (name : String) : String :=
  "Agent \x27" ++ name ++ "\x27 not found"

/-- get_logs(name, lines): the most recent entries of the registered
buffer, in order; error on an unregistered name. -/
def get_logs (s : PMState) (name : String) (lines : Nat) :
    Except String (List String) :=
  match lookupKey name s.processes with
  | none => .error (notFoundMsg name)
  | some info =>
      let log := info.logs
      let start := if log.length > lines then log.length - lines else 0
      .ok (log.drop start)

/-- An externally observable operation on the manager. -/
inductive PMOp where
  | spawn (name command : String) (args : List String) (ok : Bool)
  | kill (name : String)

/-- State after one operation. -/
def step (s : PMState) : PMOp → PMState
  | .spawn n c a ok => (spawn_with_env s n c a ok).2
  | .kill n => kill s n

/-- State after a sequence of operations. -/
def run (s : PMState) (ops : List PMOp) : PMState :=
  ops.foldl step s

/-- The launch-history entries for a name whose pid is still live. -/
def liveUnder (s : PMState) (name : String) : List (String × Nat) :=
  s.launched.filter (fun e => decide (e.1 = name) && decide (e.2 ∈ s.alive))

/-- Internal invariant of the manager state tying the registry to the
ghost OS state. -/
def Inv (s : PMState) : Prop :=
  (s.processes.map Prod.fst).Nodup ∧
  (∀ e ∈ s.processes, e.2.pid < s.nextPid) ∧
  (s.launched.map Prod.snd).Nodup ∧
  s.alive.Nodup ∧
  (∀ p ∈ s.alive, p < s.nextPid) ∧
  (∀ p ∈ s.alive, ∃ e ∈ s.processes, e.2.pid = p) ∧
  (∀ e ∈ s.processes, (e.1, e.2.pid) ∈ s.launched) ∧
  (∀ e ∈ s.launched, e.2 < s.nextPid)

end ProcessManager

namespace WsClient

/-- Connection state: whether the write half of the transport is held,
the connected flag, the session id, and whether the receive-task handle
is held. -/
structure ClientState where
  sink : Bool
  connected : Bool
  session_id : Option String
  read_handle : Bool
deriving Repr, DecidableEq

/-- The fresh client produced by WsClient::new. -/
def initClient : ClientState :=
  { sink := false, connected := false, session_id := none, read_handle := false }

/-- disconnect(): abort the receive task and drop its handle, drop the
transport handle (closing is best-effort), clear the connected flag and
the session id.  Always succeeds and always reaches the same fully
disconnected state. -/
def disconnect (_c : ClientState) : ClientState :=
  { sink := false, connected := false, session_id := none, read_handle := false }

/-- Result payload of a successful connect. -/
structure ConnectResult where
  session_id : String
  device_id : String
  skills : List String
deriving Repr, DecidableEq

/-- Outcome of waiting (up to the fixed 15 second deadline) on the
pending-handshake oneshot slot. -/
inductive HandshakeWait where
  | success (payload : Json)
  | serverError (msg : String)
  | channelDropped
  | timedOut

/-- The fixed handshake deadline in seconds. -/
def handshakeTimeoutSecs : Nat := 15

/-- Error text surfaced when the receive task exits without resolving the
pending handshake. -/
def channelDroppedMsg : String :=
  "Connection failed: server closed connection"

/-- Error text surfaced when the handshake deadline elapses. -/
def timeoutMsg : String :=
  "Connection timeout: server did not respond within 15 seconds"

/-- connect(...): tear down any previous session, open the transport,
start the receive task, send the handshake frame, then wait on the
pending-handshake slot.  The transport-open and frame-send steps are
modelled by Except parameters; the wait outcome by HandshakeWait.  On a
success payload the session id and skill list are extracted and the state
becomes connected; every wait failure first performs a full disconnect
and then surfaces its distinct error.  The asynchronous
desktop.register announcement after success does not change this state
and is not modelled. -/
def connect (c : ClientState) (deviceId : String)
    (transport : Except String Unit) (sendRes : Except String Unit)
    (wait : HandshakeWait) : ClientState × Except String ConnectResult :=
  let c0 := disconnect c
  match transport with
  | .error e => (c0, .error e)
  | .ok _ =>
      let c1 := { c0 with sink := true, read_handle := true }
      match sendRes with
      | .error e => (c1, .error e)
      | .ok _ =>
          match wait with
          | .success payload =>
              let sid := ((payload.getField "sessionId").asStr).getD ""
              let skills :=
                match (payload.getField "skills").asArr with
                | some xs => xs.filterMap Json.asStr
                | none => []
              ({ c1 with connected := true, session_id := some sid },
               .ok ⟨sid, deviceId, skills⟩)
          | .serverError msg => (disconnect c1, .error msg)
          | .channelDropped => (disconnect c1, .error channelDroppedMsg)
          | .timedOut => (disconnect c1, .error timeoutMsg)

/-- One action emitted by the receive loop: resolving the
pending-handshake slot, forwarding an event to the IPC channel sink,
spawning an independent command-execution task, or answering a ping. -/
inductive LoopAct where
  | resolveOk (payload : Json)
  | resolveErr (msg : String)
  | emitEvent (event : Json)
  | spawnCmd (commandId command : String) (args : Json)
  | pongReply

/-- An event object sent to the IPC channel. -/
def mkEvent (ty : String) (payload : Json) : Json :=
  Json.obj [("type", .str ty), ("payload", payload)]

/-- The pass-through frame types forwarded verbatim to the channel. -/
def passthroughTypes : List String :=
  ["chat.chunk", "chat.done", "skill.start", "skill.result",
   "push.message", "skill.list.response", "skill.library.response"]

/-- Handling of one parsed inbound text frame.  The Bool argument models
whether the pending-handshake oneshot sender is still present; the result
carries the new slot state and the actions performed.  Both the
connected and the error branch take the slot unconditionally (Option
take), so neither can resolve an already-taken slot. -/
def handleText (pending : Bool) (parsed : Json) : Bool × List LoopAct :=
  let msgType := ((parsed.getField "type").asStr).getD ""
  if msgType = "connected" then
    if pending then (false, [.resolveOk (parsed.getField "payload")])
    else (false, [])
  else if msgType = "error" then
    let payload := parsed.getField "payload"
    let err := ((payload.getField "message").asStr).getD "Unknown error"
    if pending then (false, [.resolveErr err])
    else (false, [.emitEvent (mkEvent "error" payload)])
  else if passthroughTypes.contains msgType then
    (pending, [.emitEvent (mkEvent msgType (parsed.getField "payload"))])
  else if msgType = "desktop.command" then
    let payload := parsed.getField "payload"
    let commandId := ((payload.getField "commandId").asStr).getD ""
    let command := ((payload.getField "command").asStr).getD ""
    (pending, [.spawnCmd commandId command (payload.getField "args")])
  else if msgType = "ping" then
    (pending, [.pongReply])
  else
    (pending, [])

/-- One inbound item of the receive loop: a text frame that parses, a
text frame that does not parse (ignored), a close frame, a read error,
or another frame kind (ignored). -/
inductive WsMsg where
  | text (parsed : Json)
  | badText
  | close
  | readErr (e : String)
  | binary

/-- The receive loop over a finite inbound prefix: threads the
pending-handshake slot state and accumulates the emitted actions; close
frames and read errors emit a synthetic disconnected event and stop, as
does the end of the stream. -/
def runLoop (pending : Bool) : List WsMsg → Bool × List LoopAct
  | [] =>
      (pending, [.emitEvent (mkEvent "disconnected"
        (Json.obj [("reason", .str "stream_ended")]))])
  | m :: rest =>
      match m with
      | .text j =>
          let r1 := handleText pending j
          let r2 := runLoop r1.1 rest
          (r2.1, r1.2 ++ r2.2)
      | .badText => runLoop pending rest
      | .binary => runLoop pending rest
      | .close =>
          (pending, [.emitEvent (mkEvent "disconnected"
            (Json.obj [("reason", .str "server_close")]))])
      | .readErr e =>
          (pending, [.emitEvent (mkEvent "disconnected"
            (Json.obj [("reason", .str ("error: " ++ e))]))])

/-- Whether an action resolves the pending-handshake slot. -/
def isResolve : LoopAct → Bool
  | .resolveOk _ => true
  | .resolveErr _ => true
  | _ => false

/-- Number of slot resolutions among a list of actions. -/
def resolveCount (acts : List LoopAct) : Nat :=
  (acts.filter isResolve).length

/-- 1 when the slot is still occupied, 0 once taken. -/
def pendingWeight (pending : Bool) : Nat :=
  if pending then 1 else 0

/-- The desktop.result frame built by a spawned command task from the
dispatcher outcome: success true with the data, or success false with
the error string, tagged with the request commandId. -/
def commandResultFrame (frameId : String) (ts : Nat) (commandId : String)
    (result : Except String Json) : Json :=
  match result with
  | .ok data =>
      Json.obj [("id", .str frameId), ("type", .str "desktop.result"),
        ("timestamp", .num ts),
        ("payload", Json.obj [("commandId", .str commandId),
          ("success", .bool true), ("data", data)])]
  | .error err =>
      Json.obj [("id", .str frameId), ("type", .str "desktop.result"),
        ("timestamp", .num ts),
        ("payload", Json.obj [("commandId", .str commandId),
          ("success", .bool false), ("error", .str err)])]

/-- What the spawned command task writes on the transport: the result
frame when the write lock is immediately available (try_lock), nothing
otherwise. -/
def commandTaskWrite (frameId : String) (ts : Nat) (commandId : String)
    (result : Except String Json) (sinkFree : Bool) : Option Json :=
  if sinkFree then some (commandResultFrame frameId ts commandId result)
  else none

/-- An inbound desktop.command frame with the given correlation id,
function name and argument payload. -/
def mkCommandFrame (commandId command : String) (args : Json) : Json :=
  Json.obj [("type", .str "desktop.command"),
    ("payload", Json.obj [("commandId", .str commandId),
      ("command", .str command), ("args", args)])]

/-- An inbound error frame with the given message. -/
def mkErrorFrame (msg : String) : Json :=
  Json.obj [("type", .str "error"),
    ("payload", Json.obj [("message", .str msg)])]

end WsClient

/-- C2: execute_local_command succeeds only on the five whitelisted
function names; any other name fails with the UnknownFunction error, and
each whitelisted handler fails with the matching MissingArgument error
when a required argument is absent or not a string (for call_mcp_tool,
once the bridge port is nonzero). -/
theorem c2_whitelist_dispatch (fn : String) (port : Nat) (args : Json)
    (hfn : fn ∉ SkillExecutor.whitelist) :
    SkillExecutor.execute_local_command port fn args =
      .error (SkillExecutor.unknownFunctionMsg fn) ∧
    (∀ a : Json, (a.getField "command").asStr = none →
      SkillExecutor.execute_local_command port "run_shell" a =
        .error (SkillExecutor.missingArgMsg "command")) ∧
    (∀ a : Json, (a.getField "path").asStr = none →
      SkillExecutor.execute_local_command port "read_file" a =
        .error (SkillExecutor.missingArgMsg "path")) ∧
    (∀ a : Json, (a.getField "path").asStr = none →
      SkillExecutor.execute_local_command port "write_file" a =
        .error (SkillExecutor.missingArgMsg "path")) ∧
    (∀ (a : Json) (p : String), (a.getField "path").asStr = some p →
      (a.getField "content").asStr = none →
      SkillExecutor.execute_local_command port "write_file" a =
        .error (SkillExecutor.missingArgMsg "content")) ∧
    (∀ a : Json, (a.getField "path").asStr = none →
      SkillExecutor.execute_local_command port "list_directory" a =
        .error (SkillExecutor.missingArgMsg "path")) ∧
    (∀ (a : Json) (q : Nat), q ≠ 0 → (a.getField "server").asStr = none →
      SkillExecutor.execute_local_command q "call_mcp_tool" a =
        .error (SkillExecutor.missingArgMsg "server")) ∧
    (∀ (a : Json) (q : Nat) (srv : String), q ≠ 0 →
      (a.getField "server").asStr = some srv →
      (a.getField "tool").asStr = none →
      SkillExecutor.execute_local_command q "call_mcp_tool" a =
        .error (SkillExecutor.missingArgMsg "tool")) := by
  refine ⟨?_, ?_, ?_, ?_, ?_, ?_, ?_, ?_⟩
  · simp only [SkillExecutor.whitelist, List.mem_cons, List.not_mem_nil,
      or_false, not_or] at hfn
    obtain ⟨h1, h2, h3, h4, h5⟩ := hfn
    simp [SkillExecutor.execute_local_command, h1, h2, h3, h4, h5]
  · intro a h
    simp [SkillExecutor.execute_local_command, SkillExecutor.run_shell, h]
  · intro a h
    simp [SkillExecutor.execute_local_command, SkillExecutor.read_file, h]
  · intro a h
    simp [SkillExecutor.execute_local_command, SkillExecutor.write_file, h]
  · intro a p hp hc
    simp [SkillExecutor.execute_local_command, SkillExecutor.write_file, hp, hc]
  · intro a h
    simp [SkillExecutor.execute_local_command, SkillExecutor.list_directory, h]
  · intro a q hq hs
    simp [SkillExecutor.execute_local_command, SkillExecutor.call_mcp_tool, hq, hs]
  · intro a q srv hq hs ht
    simp [SkillExecutor.execute_local_command, SkillExecutor.call_mcp_tool,
      hq, hs, ht]

/-- C2 witness: the unknown name is rejected and read_file on an empty
argument bag lacks its path. -/
theorem c2_whitelist_dispatch_witness :
    "unknown" ∉ SkillExecutor.whitelist ∧
    SkillExecutor.execute_local_command 0 "unknown" (Json.obj []) =
      .error (SkillExecutor.unknownFunctionMsg "unknown") ∧
    SkillExecutor.execute_local_command 0 "read_file" (Json.obj []) =
      .error (SkillExecutor.missingArgMsg "path") := by
  have h := c2_whitelist_dispatch "unknown" 0 (Json.obj []) (by decide)
  exact ⟨by decide, h.1, h.2.2.1 (Json.obj []) rfl⟩

/-- C6: with the bridge port cell at 0, call_mcp_tool always fails with
the BridgeNotRunning error; and whenever it reaches its HTTP action, the
port was nonzero. -/
theorem c6_bridge_port_gate :
    (∀ args : Json,
       SkillExecutor.execute_local_command 0 "call_mcp_tool" args =
         .error SkillExecutor.bridgeNotRunningMsg) ∧
    (∀ (port : Nat) (args : Json) (act : SkillExecutor.HandlerAct),
       SkillExecutor.execute_local_command port "call_mcp_tool" args = .ok act →
       port ≠ 0 ∧ ∃ server tool, act =
         .callMcpTool port server tool (args.getField "arguments")) := by
  constructor
  · intro args
    rfl
  · intro port args act h
    replace h : SkillExecutor.call_mcp_tool port args = .ok act := h
    by_cases hp : port = 0
    · subst hp
      simp [SkillExecutor.call_mcp_tool] at h
    · refine ⟨hp, ?_⟩
      simp only [SkillExecutor.call_mcp_tool, if_neg hp] at h
      cases hs : (args.getField "server").asStr with
      | none => rw [hs] at h; cases h
      | some server =>
        rw [hs] at h
        cases ht : (args.getField "tool").asStr with
        | none => rw [ht] at h; cases h
        | some tool =>
          rw [ht] at h
          injection h with h
          exact ⟨server, tool, h.symm⟩

/-- C6 witness: with port 7 and both arguments present the dispatcher
reaches the HTTP action, and the theorem yields a nonzero port. -/
theorem c6_bridge_port_gate_witness :
    SkillExecutor.execute_local_command 7 "call_mcp_tool"
      (Json.obj [("server", .str "srv"), ("tool", .str "tl")]) =
      .ok (.callMcpTool 7 "srv" "tl" Json.null) ∧
    ((7 : Nat) ≠ 0 ∧ ∃ server tool,
      SkillExecutor.HandlerAct.callMcpTool 7 "srv" "tl" Json.null =
        .callMcpTool 7 server tool
          ((Json.obj [("server", .str "srv"),
            ("tool", .str "tl")]).getField "arguments")) :=
  ⟨rfl, c6_bridge_port_gate.2 7
    (Json.obj [("server", .str "srv"), ("tool", .str "tl")])
    (.callMcpTool 7 "srv" "tl" Json.null) rfl⟩

/-- C9: in call_mcp_tool the bridge-port check precedes argument
validation: with port 0 the call fails with BridgeNotRunning even when
the server argument is missing, and a MissingArgument failure for server
or tool implies the port was nonzero. -/
theorem c9_port_check_first :
    (∀ args : Json, (args.getField "server").asStr = none →
       SkillExecutor.execute_local_command 0 "call_mcp_tool" args =
         .error SkillExecutor.bridgeNotRunningMsg) ∧
    (∀ (port : Nat) (args : Json),
       (SkillExecutor.execute_local_command port "call_mcp_tool" args =
          .error (SkillExecutor.missingArgMsg "server") ∨
        SkillExecutor.execute_local_command port "call_mcp_tool" args =
          .error (SkillExecutor.missingArgMsg "tool")) →
       port ≠ 0) := by
  constructor
  · intro args _
    rfl
  · intro port args h hp
    subst hp
    have h0 : SkillExecutor.execute_local_command 0 "call_mcp_tool" args =
        .error SkillExecutor.bridgeNotRunningMsg := rfl
    cases h with
    | inl h =>
      rw [h0] at h
      injection h with h
      exact absurd h (by decide)
    | inr h =>
      rw [h0] at h
      injection h with h
      exact absurd h (by decide)

/-- A successful lookup exhibits a binding in the list. -/
theorem lookupKey_mem {α : Type} {n : String} {l : List (String × α)} {a : α}
    (h : lookupKey n l = some a) : (n, a) ∈ l := by
  induction l with
  | nil => exact absurd h (by simp [lookupKey])
  | cons e rest ih =>
    simp only [lookupKey] at h
    split at h
    · next he =>
      injection h with h
      obtain ⟨e1, e2⟩ := e
      dsimp at he h
      subst he
      subst h
      exact List.mem_cons_self _ _
    · exact List.mem_cons_of_mem _ (ih h)

/-- A lookup fails exactly when no binding carries the key. -/
theorem lookupKey_eq_none {α : Type} {n : String} {l : List (String × α)} :
    lookupKey n l = none ↔ ∀ e ∈ l, e.1 ≠ n := by
  induction l with
  | nil => simp [lookupKey]
  | cons e rest ih =>
    simp only [lookupKey]
    by_cases he : e.1 = n
    · simp [he]
    · simp [he, ih]

/-- Membership after removing a key. -/
theorem mem_eraseKey {α : Type} {n : String} {l : List (String × α)}
    {e : String × α} : e ∈ eraseKey n l ↔ e ∈ l ∧ e.1 ≠ n := by
  simp [eraseKey, List.mem_filter]

/-- Removing a key makes its lookup fail. -/
theorem lookupKey_eraseKey {α : Type} (n : String) (l : List (String × α)) :
    lookupKey n (eraseKey n l) = none := by
  rw [lookupKey_eq_none]
  intro e he
  exact (mem_eraseKey.mp he).2

/-- Removing an absent key is the identity. -/
theorem eraseKey_of_lookup_none {α : Type} {n : String} {l : List (String × α)}
    (h : lookupKey n l = none) : eraseKey n l = l := by
  simp only [eraseKey]
  rw [List.filter_eq_self]
  intro e he
  simp only [decide_eq_true_eq]
  exact (lookupKey_eq_none.mp h) e he

namespace ProcessManager

/-- A list already within capacity is its own last-1000 suffix. -/
theorem takeLast_of_le {l : List String} (h : l.length ≤ MAX_LOG_LINES) :
    takeLast MAX_LOG_LINES l = l := by
  unfold takeLast
  rw [Nat.sub_eq_zero_of_le h, List.drop_zero]

/-- One insertion commutes with taking the last-1000 suffix of the full
line history. -/
theorem pushLog_takeLast (done : List String) (x : String) :
    pushLog (takeLast MAX_LOG_LINES done) x =
      takeLast MAX_LOG_LINES (done ++ [x]) := by
  have hM : 1 ≤ MAX_LOG_LINES := by decide
  by_cases h : MAX_LOG_LINES ≤ done.length
  · have hlen : (takeLast MAX_LOG_LINES done).length = MAX_LOG_LINES := by
      simp only [takeLast, List.length_drop]
      exact Nat.sub_sub_self h
    unfold pushLog
    rw [if_pos (le_of_eq hlen.symm)]
    unfold takeLast
    rw [List.drop_drop]
    have h2 : (done ++ [x]).length - MAX_LOG_LINES =
        (done.length - MAX_LOG_LINES) + 1 := by
      simp only [List.length_append, List.length_singleton]
      omega
    rw [h2, List.drop_append_of_le_length (by omega)]
  · push_neg at h
    rw [takeLast_of_le (le_of_lt h)]
    unfold pushLog
    rw [if_neg (by omega)]
    have hx : (done ++ [x]).length ≤ MAX_LOG_LINES := by
      simp only [List.length_append, List.length_singleton]
      omega
    rw [takeLast_of_le hx]

/-- Starting empty, a sequence of insertions leaves exactly the last-1000
suffix of the appended lines, in append order. -/
theorem appendLines_nil_eq_takeLast (ls : List String) :
    appendLines [] ls = takeLast MAX_LOG_LINES ls := by
  have gen : ∀ (ms done : List String),
      appendLines (takeLast MAX_LOG_LINES done) ms =
        takeLast MAX_LOG_LINES (done ++ ms) := by
    intro ms
    induction ms with
    | nil => intro done; simp [appendLines]
    | cons x xs ih =>
      intro done
      simp only [appendLines, List.foldl_cons] at ih ⊢
      rw [pushLog_takeLast, ih (done ++ [x])]
      simp
  have h := gen ls []
  simpa [takeLast] using h

end ProcessManager

/-- C3: the log buffer never exceeds 1000 entries; at capacity each
insertion first evicts the oldest entry; and the retained entries are
exactly the most recent lines in append order. -/
theorem c3_log_ring_buffer (ls : List String) (buf : List String) (x : String)
    (h : buf.length = ProcessManager.MAX_LOG_LINES) :
    (ProcessManager.appendLines [] ls).length ≤ ProcessManager.MAX_LOG_LINES ∧
    ProcessManager.pushLog buf x = buf.drop 1 ++ [x] ∧
    ProcessManager.appendLines [] ls =
      ProcessManager.takeLast ProcessManager.MAX_LOG_LINES ls := by
  refine ⟨?_, ?_, ProcessManager.appendLines_nil_eq_takeLast ls⟩
  · rw [ProcessManager.appendLines_nil_eq_takeLast]
    simp only [ProcessManager.takeLast, ProcessManager.MAX_LOG_LINES,
      List.length_drop]
    omega
  · simp [ProcessManager.pushLog, h]

/-- C3 witness: a full buffer evicts its oldest line on insertion, and a
short append history is retained whole and in order. -/
theorem c3_log_ring_buffer_witness :
    (List.replicate ProcessManager.MAX_LOG_LINES "z").length =
      ProcessManager.MAX_LOG_LINES ∧
    (ProcessManager.appendLines [] ["a", "b"]).length ≤
      ProcessManager.MAX_LOG_LINES ∧
    ProcessManager.pushLog (List.replicate ProcessManager.MAX_LOG_LINES "z") "c" =
      (List.replicate ProcessManager.MAX_LOG_LINES "z").drop 1 ++ ["c"] ∧
    ProcessManager.appendLines [] ["a", "b"] =
      ProcessManager.takeLast ProcessManager.MAX_LOG_LINES ["a", "b"] := by
  have h := c3_log_ring_buffer ["a", "b"]
    (List.replicate ProcessManager.MAX_LOG_LINES "z") "c" (by simp)
  exact ⟨by simp, h.1, h.2.1, h.2.2⟩

/-- C7: get_logs on a registered name returns the most recent
min(k, buffer length) entries in append order (a suffix of the buffer);
on an unregistered name, and in particular on any name immediately after
kill of that name, it fails with the not-found error. -/
theorem c7_get_logs (s : ProcessManager.PMState) (name : String) (k : Nat)
    (info : ProcessManager.ProcInfo) :
    (lookupKey name s.processes = none →
      ProcessManager.get_logs s name k =
        .error (ProcessManager.notFoundMsg name)) ∧
    (ProcessManager.get_logs (ProcessManager.kill s name) name k =
      .error (ProcessManager.notFoundMsg name)) ∧
    (lookupKey name s.processes = some info →
      ProcessManager.get_logs s name k =
        .ok (info.logs.drop (info.logs.length - k)) ∧
      ∃ r, ProcessManager.get_logs s name k = .ok r ∧
        r.length = min k info.logs.length ∧
        info.logs.take (info.logs.length - k) ++ r = info.logs) := by
  refine ⟨?_, ?_, ?_⟩
  · intro h
    simp [ProcessManager.get_logs, h]
  · cases hc : lookupKey name s.processes with
    | none =>
      simp [ProcessManager.kill, hc, ProcessManager.get_logs]
    | some i =>
      simp [ProcessManager.kill, hc, ProcessManager.get_logs, lookupKey_eraseKey]
  · intro h
    have hmain : ProcessManager.get_logs s name k =
        .ok (info.logs.drop (info.logs.length - k)) := by
      simp only [ProcessManager.get_logs, h]
      congr 1
      split
      · rfl
      · next hle =>
        have h0 : info.logs.length - k = 0 := by omega
        rw [h0, List.drop_zero]
    refine ⟨hmain, info.logs.drop (info.logs.length - k), hmain, ?_, ?_⟩
    · rw [List.length_drop]
      omega
    · exact List.take_append_drop _ _

/-- C7 witness: on a concrete one-process state, get_logs returns the
last two of three lines, and fails right after the process is killed. -/
theorem c7_get_logs_witness :
    lookupKey "a" (⟨[("a", ⟨0, ["l1", "l2", "l3"]⟩)], [0], [("a", 0)], 1⟩ :
        ProcessManager.PMState).processes = some ⟨0, ["l1", "l2", "l3"]⟩ ∧
    ProcessManager.get_logs
      (⟨[("a", ⟨0, ["l1", "l2", "l3"]⟩)], [0], [("a", 0)], 1⟩ :
        ProcessManager.PMState) "a" 2 = .ok ["l2", "l3"] ∧
    ProcessManager.get_logs
      (ProcessManager.kill
        (⟨[("a", ⟨0, ["l1", "l2", "l3"]⟩)], [0], [("a", 0)], 1⟩ :
          ProcessManager.PMState) "a") "a" 2 =
      .error (ProcessManager.notFoundMsg "a") := by
  have h := c7_get_logs
    (⟨[("a", ⟨0, ["l1", "l2", "l3"]⟩)], [0], [("a", 0)], 1⟩ :
      ProcessManager.PMState) "a" 2 ⟨0, ["l1", "l2", "l3"]⟩
  exact ⟨rfl, (h.2.2 rfl).1, h.2.1⟩

/-- A key that cannot be looked up is not among the keys. -/
theorem not_mem_keys_of_lookup_none {α : Type} {n : String}
    {l : List (String × α)} (h : lookupKey n l = none) :
    n ∉ l.map Prod.fst := by
  intro hm
  obtain ⟨e, he, hfst⟩ := List.mem_map.mp hm
  exact (lookupKey_eq_none.mp h) e he hfst

/-- A duplicate-free list whose elements are pairwise equal has at most
one element. -/
theorem length_le_one_of_nodup_of_all_eq {α : Type} {l : List α}
    (hnd : l.Nodup) (hall : ∀ x ∈ l, ∀ y ∈ l, x = y) : l.length ≤ 1 := by
  match l with
  | [] => simp
  | [x] => simp
  | x :: y :: rest =>
    exfalso
    have hxy : x = y := hall x (by simp) y (by simp)
    rw [List.nodup_cons] at hnd
    exact hnd.1 (by rw [hxy]; exact List.mem_cons_self y rest)

namespace ProcessManager

/-- The fresh manager satisfies the invariant. -/
theorem inv_init : Inv initPM := by
  simp [Inv, initPM]

/-- kill preserves the invariant. -/
theorem inv_kill {s : PMState} (h : Inv s) (name : String) :
    Inv (kill s name) := by
  obtain ⟨h1, h2, h3, h4, h5, h6, h7, h8⟩ := h
  unfold kill
  cases hc : lookupKey name s.processes with
  | none => exact ⟨h1, h2, h3, h4, h5, h6, h7, h8⟩
  | some info =>
    have hmem : (name, info) ∈ s.processes := lookupKey_mem hc
    refine ⟨?_, ?_, h3, h4.erase _, ?_, ?_, ?_, h8⟩
    · exact List.Nodup.sublist ((List.filter_sublist _).map Prod.fst) h1
    · intro e he
      exact h2 e (mem_eraseKey.mp he).1
    · intro p hp
      exact h5 p (List.mem_of_mem_erase hp)
    · intro p hp
      obtain ⟨hne, hpa⟩ := (h4.mem_erase_iff).mp hp
      obtain ⟨e, he, hpid⟩ := h6 p hpa
      refine ⟨e, mem_eraseKey.mpr ⟨he, ?_⟩, hpid⟩
      intro hname
      have heq : e = (name, info) :=
        List.inj_on_of_nodup_map h1 he hmem (by simpa using hname)
      apply hne
      rw [← hpid, heq]
    · intro e he
      exact h7 e (mem_eraseKey.mp he).1

/-- spawn_with_env preserves the invariant. -/
theorem inv_spawn {s : PMState} (h : Inv s) (name c : String)
    (a : List String) (ok : Bool) : Inv (spawn_with_env s name c a ok).2 := by
  set s1 := (if (lookupKey name s.processes).isSome then kill s name else s)
    with hdef
  have hs1 : Inv s1 := by
    rw [hdef]
    split
    · exact inv_kill h name
    · exact h
  have hnone : lookupKey name s1.processes = none := by
    rw [hdef]
    cases hc : lookupKey name s.processes with
    | none => simp [hc]
    | some info => simp [hc, kill, lookupKey_eraseKey]
  cases ok with
  | false => exact hs1
  | true =>
    obtain ⟨h1, h2, h3, h4, h5, h6, h7, h8⟩ := hs1
    have heq : (spawn_with_env s name c a true).2 =
        { processes := (name, ⟨s1.nextPid, []⟩) :: eraseKey name s1.processes
          alive := s1.nextPid :: s1.alive
          launched := (name, s1.nextPid) :: s1.launched
          nextPid := s1.nextPid + 1 } := rfl
    rw [heq, eraseKey_of_lookup_none hnone]
    refine ⟨?_, ?_, ?_, ?_, ?_, ?_, ?_, ?_⟩
    · simp only [List.map_cons]
      exact List.nodup_cons.mpr ⟨not_mem_keys_of_lookup_none hnone, h1⟩
    · intro e he
      rcases List.mem_cons.mp he with rfl | hmem
      · exact Nat.lt_succ_self _
      · exact Nat.lt_succ_of_lt (h2 e hmem)
    · simp only [List.map_cons]
      refine List.nodup_cons.mpr ⟨?_, h3⟩
      intro hm
      obtain ⟨e, he, hsnd⟩ := List.mem_map.mp hm
      have := h8 e he
      omega
    · refine List.nodup_cons.mpr ⟨?_, h4⟩
      intro hm
      have := h5 _ hm
      omega
    · intro p hp
      rcases List.mem_cons.mp hp with rfl | hmem
      · exact Nat.lt_succ_self _
      · exact Nat.lt_succ_of_lt (h5 p hmem)
    · intro p hp
      rcases List.mem_cons.mp hp with rfl | hmem
      · exact ⟨(name, ⟨s1.nextPid, []⟩), List.mem_cons_self _ _, rfl⟩
      · obtain ⟨e, he, hpid⟩ := h6 p hmem
        exact ⟨e, List.mem_cons_of_mem _ he, hpid⟩
    · intro e he
      rcases List.mem_cons.mp he with rfl | hmem
      · exact List.mem_cons_self _ _
      · exact List.mem_cons_of_mem _ (h7 e hmem)
    · intro e he
      rcases List.mem_cons.mp he with rfl | hmem
      · exact Nat.lt_succ_self _
      · exact Nat.lt_succ_of_lt (h8 e hmem)

/-- Each operation preserves the invariant. -/
theorem inv_step {s : PMState} (h : Inv s) (op : PMOp) : Inv (step s op) := by
  cases op with
  | spawn n c a ok => exact inv_spawn h n c a ok
  | kill n => exact inv_kill h n

/-- The invariant holds after any operation sequence. -/
theorem inv_run {s : PMState} (h : Inv s) (ops : List PMOp) :
    Inv (run s ops) := by
  induction ops generalizing s with
  | nil => exact h
  | cons op rest ih => exact ih (inv_step h op)

/-- Under the invariant, at most one launch under a given name is still
alive. -/
theorem liveUnder_le_one {s : PMState} (h : Inv s) (name : String) :
    (liveUnder s name).length ≤ 1 := by
  obtain ⟨h1, h2, h3, h4, h5, h6, h7, h8⟩ := h
  have hsub : (liveUnder s name).Sublist s.launched := List.filter_sublist _
  have hnd : (liveUnder s name).Nodup :=
    List.Nodup.of_map Prod.snd (List.Nodup.sublist (hsub.map Prod.snd) h3)
  have decode : ∀ z ∈ liveUnder s name, z.1 = name ∧ z.2 ∈ s.alive := by
    intro z hz
    have hzf := (List.mem_filter.mp hz).2
    simpa using hzf
  have main : ∀ z ∈ liveUnder s name,
      ∃ e ∈ s.processes, e.1 = name ∧ e.2.pid = z.2 := by
    intro z hz
    obtain ⟨hz1, hz2⟩ := decode z hz
    have hzl : z ∈ s.launched := (List.mem_filter.mp hz).1
    obtain ⟨e, he, hpid⟩ := h6 z.2 hz2
    have hel : (e.1, e.2.pid) ∈ s.launched := h7 e he
    have hzeq : z = (e.1, e.2.pid) :=
      List.inj_on_of_nodup_map h3 hzl hel (by simp [hpid])
    have hename : e.1 = name := by
      rw [← hz1]
      exact (congrArg Prod.fst hzeq).symm
    exact ⟨e, he, hename, hpid⟩
  refine length_le_one_of_nodup_of_all_eq hnd ?_
  intro x hx y hy
  obtain ⟨e, he, hen, hep⟩ := main x hx
  obtain ⟨f, hf, hfn, hfp⟩ := main y hy
  have hef : e = f :=
    List.inj_on_of_nodup_map h1 he hf (by rw [hen, hfn])
  have hsnd : x.2 = y.2 := by rw [← hep, ← hfp, hef]
  exact Prod.ext (by rw [(decode x hx).1, (decode y hy).1]) hsnd

/-- Under the invariant, spawning over a registered name leaves the
previously registered pid dead when the call returns, whether or not the
new launch succeeds. -/
theorem spawn_kills_previous {s : PMState} (hInv : Inv s) {name : String}
    {info : ProcInfo} (h : lookupKey name s.processes = some info)
    (c : String) (a : List String) (ok : Bool) :
    info.pid ∉ (spawn_with_env s name c a ok).2.alive := by
  obtain ⟨h1, h2, h3, h4, h5, h6, h7, h8⟩ := hInv
  have hmem : (name, info) ∈ s.processes := lookupKey_mem h
  have hlt : info.pid < s.nextPid := h2 _ hmem
  have hnotkill : info.pid ∉ (kill s name).alive := by
    simp only [kill, h]
    intro hm
    exact ((h4.mem_erase_iff).mp hm).1 rfl
  have hnext : (kill s name).nextPid = s.nextPid := by
    simp [kill, h]
  cases ok with
  | false =>
    have hstate : (spawn_with_env s name c a false).2 = kill s name := by
      simp [spawn_with_env, h]
    rw [hstate]
    exact hnotkill
  | true =>
    have hstate : (spawn_with_env s name c a true).2 =
        { processes := (name, ⟨(kill s name).nextPid, []⟩) ::
            eraseKey name (kill s name).processes
          alive := (kill s name).nextPid :: (kill s name).alive
          launched := (name, (kill s name).nextPid) :: (kill s name).launched
          nextPid := (kill s name).nextPid + 1 } := by
      simp [spawn_with_env, h]
    rw [hstate]
    intro hm
    rcases List.mem_cons.mp hm with heq | hmem2
    · rw [hnext] at heq
      omega
    · exact hnotkill hmem2

end ProcessManager

namespace WsClient

/-- Resolution counting distributes over action concatenation. -/
theorem resolveCount_append (a b : List LoopAct) :
    resolveCount (a ++ b) = resolveCount a + resolveCount b := by
  simp [resolveCount, List.filter_append]

/-- One frame can spend the pending-handshake slot at most once: the
resolutions it emits plus the remaining slot weight never exceed the
incoming slot weight. -/
theorem handleText_resolve_bound (p : Bool) (j : Json) :
    resolveCount (handleText p j).2 + pendingWeight (handleText p j).1 ≤
      pendingWeight p := by
  by_cases h1 : ((j.getField "type").asStr.getD "") = "connected"
  · cases p <;>
      simp [handleText, h1, resolveCount, isResolve, pendingWeight]
  · by_cases h2 : ((j.getField "type").asStr.getD "") = "error"
    · cases p <;>
        simp [handleText, h1, h2, resolveCount, isResolve, pendingWeight]
    · by_cases h3 : ((j.getField "type").asStr.getD "") ∈ passthroughTypes
      · cases p <;>
          simp [handleText, h1, h2, h3, resolveCount, isResolve, pendingWeight]
      · by_cases h4 : ((j.getField "type").asStr.getD "") = "desktop.command"
        · cases p <;>
            simp [handleText, h1, h2, h3, h4, resolveCount, isResolve,
              pendingWeight, passthroughTypes]
        · by_cases h5 : ((j.getField "type").asStr.getD "") = "ping"
          · cases p <;>
              simp [handleText, h1, h2, h3, h4, h5, resolveCount, isResolve,
                pendingWeight, passthroughTypes]
          · cases p <;>
              simp_all [handleText, resolveCount, isResolve,
                pendingWeight, passthroughTypes]

/-- The loop-level slot accounting: total resolutions plus the final slot
weight never exceed the initial slot weight. -/
theorem runLoop_resolve_bound (msgs : List WsMsg) (p : Bool) :
    resolveCount (runLoop p msgs).2 + pendingWeight (runLoop p msgs).1 ≤
      pendingWeight p := by
  induction msgs generalizing p with
  | nil => simp [runLoop, resolveCount, isResolve]
  | cons m rest ih =>
    cases m with
    | text j =>
      simp only [runLoop]
      have h1 := handleText_resolve_bound p j
      have h2 := ih (handleText p j).1
      rw [resolveCount_append]
      omega
    | badText => simpa [runLoop] using ih p
    | binary => simpa [runLoop] using ih p
    | close => simp [runLoop, resolveCount, isResolve]
    | readErr e => simp [runLoop, resolveCount, isResolve]

end WsClient

/-- C4: every handshake-wait failure of connect (server error payload,
receive task exiting without resolving the slot, or the fixed timeout)
yields the fully disconnected state (no transport handle, not connected,
no session id, no receive-task handle) together with its distinct error:
the server message verbatim, the server-closed-connection error, or the
timeout error. -/
theorem c4_handshake_failure_full_disconnect (c : WsClient.ClientState)
    (deviceId msg : String) :
    WsClient.connect c deviceId (.ok ()) (.ok ()) (.serverError msg) =
      (WsClient.initClient, .error msg) ∧
    WsClient.connect c deviceId (.ok ()) (.ok ()) .channelDropped =
      (WsClient.initClient, .error WsClient.channelDroppedMsg) ∧
    WsClient.connect c deviceId (.ok ()) (.ok ()) .timedOut =
      (WsClient.initClient, .error WsClient.timeoutMsg) ∧
    WsClient.initClient.sink = false ∧
    WsClient.initClient.connected = false ∧
    WsClient.initClient.session_id = none ∧
    WsClient.initClient.read_handle = false :=
  ⟨rfl, rfl, rfl, rfl, rfl, rfl, rfl⟩

/-- C5: an inbound desktop.command frame makes the receive loop emit an
independent spawn action carrying the same correlation id, function name
and argument payload, while the loop itself continues unchanged on the
remaining messages; the spawned task writes (when the write lock is
free) a desktop.result frame tagged with the same commandId whose
payload is success true with the dispatcher data, or success false with
the error string. -/
theorem c5_desktop_command_flow (pending : Bool) (cid fn : String)
    (args : Json) (rest : List WsClient.WsMsg) (frameId : String) (ts : Nat)
    (data : Json) (err : String) :
    WsClient.handleText pending (WsClient.mkCommandFrame cid fn args) =
      (pending, [.spawnCmd cid fn args]) ∧
    (WsClient.runLoop pending
        (.text (WsClient.mkCommandFrame cid fn args) :: rest)).2 =
      .spawnCmd cid fn args :: (WsClient.runLoop pending rest).2 ∧
    (WsClient.runLoop pending
        (.text (WsClient.mkCommandFrame cid fn args) :: rest)).1 =
      (WsClient.runLoop pending rest).1 ∧
    WsClient.commandTaskWrite frameId ts cid (.ok data) true =
      some (WsClient.commandResultFrame frameId ts cid (.ok data)) ∧
    WsClient.commandTaskWrite frameId ts cid (.error err) true =
      some (WsClient.commandResultFrame frameId ts cid (.error err)) ∧
    (WsClient.commandResultFrame frameId ts cid (.ok data)).getField "type" =
      .str "desktop.result" ∧
    ((WsClient.commandResultFrame frameId ts cid
        (.ok data)).getField "payload").getField "commandId" = .str cid ∧
    ((WsClient.commandResultFrame frameId ts cid
        (.ok data)).getField "payload").getField "success" = .bool true ∧
    ((WsClient.commandResultFrame frameId ts cid
        (.ok data)).getField "payload").getField "data" = data ∧
    (WsClient.commandResultFrame frameId ts cid
        (.error err)).getField "type" = .str "desktop.result" ∧
    ((WsClient.commandResultFrame frameId ts cid
        (.error err)).getField "payload").getField "commandId" = .str cid ∧
    ((WsClient.commandResultFrame frameId ts cid
        (.error err)).getField "payload").getField "success" = .bool false ∧
    ((WsClient.commandResultFrame frameId ts cid
        (.error err)).getField "payload").getField "error" = .str err :=
  ⟨rfl, rfl, rfl, rfl, rfl, rfl, rfl, rfl, rfl, rfl, rfl, rfl, rfl⟩

/-- C8: the pending-handshake slot is consumed at most once.  An inbound
error frame resolves the slot exactly when it is still occupied;
otherwise it is forwarded to the event sink as a runtime error event and
the loop continues on the remaining messages; and over any inbound
sequence at most one resolution ever happens. -/
theorem c8_handshake_slot_once (msg : String)
    (rest msgs : List WsClient.WsMsg) :
    WsClient.handleText true (WsClient.mkErrorFrame msg) =
      (false, [.resolveErr msg]) ∧
    WsClient.handleText false (WsClient.mkErrorFrame msg) =
      (false, [.emitEvent (WsClient.mkEvent "error"
        (Json.obj [("message", .str msg)]))]) ∧
    (WsClient.runLoop false (.text (WsClient.mkErrorFrame msg) :: rest)).2 =
      .emitEvent (WsClient.mkEvent "error"
        (Json.obj [("message", .str msg)])) ::
        (WsClient.runLoop false rest).2 ∧
    WsClient.resolveCount (WsClient.runLoop true msgs).2 ≤ 1 := by
  refine ⟨rfl, rfl, rfl, ?_⟩
  have h := WsClient.runLoop_resolve_bound msgs true
  have h1 : WsClient.pendingWeight true = 1 := rfl
  omega

/-- C1: over every sequence of spawn and kill operations starting from a
fresh manager, each logical name has at most one live process after each
call returns; and spawn over an already registered name kills that
process (its pid is no longer live once spawn returns, whether or not
the new launch succeeds). -/
theorem c1_unique_live_per_name :
    (∀ (ops : List ProcessManager.PMOp) (name : String),
      (ProcessManager.liveUnder
        (ProcessManager.run ProcessManager.initPM ops) name).length ≤ 1) ∧
    (∀ (ops : List ProcessManager.PMOp) (name : String)
       (info : ProcessManager.ProcInfo) (c : String) (a : List String)
       (ok : Bool),
      lookupKey name
        (ProcessManager.run ProcessManager.initPM ops).processes = some info →
      info.pid ∉
        (ProcessManager.spawn_with_env
          (ProcessManager.run ProcessManager.initPM ops)
          name c a ok).2.alive) := by
  constructor
  · intro ops name
    exact ProcessManager.liveUnder_le_one
      (ProcessManager.inv_run ProcessManager.inv_init ops) name
  · intro ops name info c a ok h
    exact ProcessManager.spawn_kills_previous
      (ProcessManager.inv_run ProcessManager.inv_init ops) h c a ok

/-- C1 witness: after one successful spawn of name a, that name holds one
live process (pid 0), and a respawn under the same name leaves pid 0
dead. -/
theorem c1_unique_live_per_name_witness :
    lookupKey "a"
      (ProcessManager.run ProcessManager.initPM
        [.spawn "a" "cmd" [] true]).processes = some ⟨0, []⟩ ∧
    (ProcessManager.liveUnder
      (ProcessManager.run ProcessManager.initPM
        [.spawn "a" "cmd" [] true]) "a").length ≤ 1 ∧
    (0 : Nat) ∉
      (ProcessManager.spawn_with_env
        (ProcessManager.run ProcessManager.initPM [.spawn "a" "cmd" [] true])
        "a" "cmd" [] true).2.alive := by
  refine ⟨rfl, c1_unique_live_per_name.1 [.spawn "a" "cmd" [] true] "a", ?_⟩
  exact c1_unique_live_per_name.2 [.spawn "a" "cmd" [] true] "a" ⟨0, []⟩
    "cmd" [] true rfl

/-- C10: when spawn is called over a registered name and the OS launch
fails, the call returns an error, yet the previous process has already
been killed and deregistered: is_running is false and the old pid is no
longer live - spawn is not atomic on error. -/
theorem c10_spawn_failure_not_atomic (ops : List ProcessManager.PMOp)
    (name : String) (info : ProcessManager.ProcInfo) (c : String)
    (a : List String)
    (h : lookupKey name
      (ProcessManager.run ProcessManager.initPM ops).processes = some info) :
    (ProcessManager.spawn_with_env
      (ProcessManager.run ProcessManager.initPM ops) name c a false).1 =
      .error "spawn failed" ∧
    ProcessManager.is_running
      (ProcessManager.spawn_with_env
        (ProcessManager.run ProcessManager.initPM ops) name c a false).2
      name = false ∧
    info.pid ∉
      (ProcessManager.spawn_with_env
        (ProcessManager.run ProcessManager.initPM ops) name c a false).2.alive := by
  refine ⟨rfl, ?_, ?_⟩
  · have hstate : (ProcessManager.spawn_with_env
        (ProcessManager.run ProcessManager.initPM ops) name c a false).2 =
        ProcessManager.kill (ProcessManager.run ProcessManager.initPM ops)
          name := by
      simp [ProcessManager.spawn_with_env, h]
    rw [hstate]
    simp [ProcessManager.is_running, ProcessManager.kill, h, lookupKey_eraseKey]
  · exact ProcessManager.spawn_kills_previous
      (ProcessManager.inv_run ProcessManager.inv_init ops) h c a false

/-- C10 witness: spawn of a registered name a with a failing launch
returns the error while name a is no longer registered and pid 0 is no
longer live. -/
theorem c10_spawn_failure_not_atomic_witness :
    lookupKey "a"
      (ProcessManager.run ProcessManager.initPM
        [.spawn "a" "cmd" [] true]).processes = some ⟨0, []⟩ ∧
    (ProcessManager.spawn_with_env
      (ProcessManager.run ProcessManager.initPM [.spawn "a" "cmd" [] true])
      "a" "cmd" [] false).1 = .error "spawn failed" ∧
    ProcessManager.is_running
      (ProcessManager.spawn_with_env
        (ProcessManager.run ProcessManager.initPM [.spawn "a" "cmd" [] true])
        "a" "cmd" [] false).2 "a" = false ∧
    (0 : Nat) ∉
      (ProcessManager.spawn_with_env
        (ProcessManager.run ProcessManager.initPM [.spawn "a" "cmd" [] true])
        "a" "cmd" [] false).2.alive := by
  have h := c10_spawn_failure_not_atomic [.spawn "a" "cmd" [] true] "a"
    ⟨0, []⟩ "cmd" [] rfl
  exact ⟨rfl, h.1, h.2.1, h.2.2⟩

/-- C9 witness: with port 0 and no server argument the bridge error wins;
with port 5 the missing-server error appears and the theorem yields a
nonzero port. -/
theorem c9_port_check_first_witness :
    SkillExecutor.execute_local_command 0 "call_mcp_tool" (Json.obj []) =
      .error SkillExecutor.bridgeNotRunningMsg ∧
    SkillExecutor.execute_local_command 5 "call_mcp_tool" (Json.obj []) =
      .error (SkillExecutor.missingArgMsg "server") ∧
    (5 : Nat) ≠ 0 :=
  ⟨c9_port_check_first.1 (Json.obj []) rfl, rfl,
   c9_port_check_first.2 5 (Json.obj []) (Or.inl rfl)⟩

end AgentOS
